import Mathlib

/-!
Shallow embedding of `textrender` (src/lib.rs, src/logging.rs), a debug-text
overlay that intercepts a host process's internal text-drawing routines,
transports the captured commands through a bounded queue, and redraws them.

Conventions of the embedding:
* `f32` values are embedded as exact rationals (ℚ); Rust's `%` on floats
  (remainder with the sign of the dividend, i.e. truncated division) is
  embedded as `rustRem`.
* Foreign wide-character buffers (`*const u16`) are embedded as `List ℕ`
  of 16-bit code units; the null-terminated scan is a `takeWhile`.
* The host window singleton (`get_instance::<CSWindowImp>()`) is embedded as
  an `Option CSWindowImp` parameter: `none` covers the absent / not-yet
  initialized window object.
-/

/-- Truncation toward zero of a rational, embedding Rust's float→int
truncation and the truncated division underlying Rust's float `%`:
`Int.tdiv` rounds toward zero. -/
def ratTrunc (q : ℚ) : ℤ := q.num.tdiv (q.den : ℤ)

/-- Rust's `%` on floats: remainder of truncated division, with the sign of
the dividend, embedded over exact rationals. -/
def rustRem (a b : ℚ) : ℚ := a - b * (ratTrunc (a / b) : ℚ)

/-- The wrapping used in the `DrawCommand::Text` arm of
`DebugTextRender::render` (src/lib.rs:176-177): `(v % size + size) % size`. -/
def wrapCoord (v size : ℚ) : ℚ := rustRem (rustRem v size + size) size

/-- `enum DrawCommand` (src/lib.rs:35-41). -/
inductive DrawCommand : Type where
  | Text : String → ℚ → ℚ → DrawCommand
  | SetFontSize : ℚ → DrawCommand
  | SetTextScale : ℚ → ℚ → ℚ → DrawCommand
  | ResetTextScale : DrawCommand
deriving DecidableEq, Repr

/-- `const BASE_IMGUI_FONT_SIZE_PX: f32 = 13.0` (src/lib.rs:33). -/
def BASE_IMGUI_FONT_SIZE_PX : ℚ := 13

/-- `CSWindowType` of the host window config (Windowed / Fullscreen /
Borderless), as matched in `DebugTextRender::window_size`. -/
inductive CSWindowType : Type where
  | Windowed | Fullscreen | Borderless
deriving DecidableEq, Repr

/-- The fields of the host window config read by
`DebugTextRender::window_size` (src/lib.rs:115-127). Pixel sizes are
integers in the host structure, cast to `f32` when read. -/
structure PersistentWindowConfig : Type where
  window_type : CSWindowType
  windowed_screen_width : ℕ
  windowed_screen_height : ℕ
  fullscreen_width : ℕ
  fullscreen_height : ℕ
  borderless_screen_width : ℕ
  borderless_screen_height : ℕ
deriving DecidableEq, Repr

/-- The fields of the host window singleton `CSWindowImp` read by
`DebugTextRender::get_screen_size` and `window_size`. -/
structure CSWindowImp : Type where
  screen_width : ℕ
  screen_height : ℕ
  persistent_window_config : PersistentWindowConfig
deriving DecidableEq, Repr

/-- `DebugTextRender::get_screen_size` (src/lib.rs:105-111): screen size from
the window singleton, or the `[1920.0, 1080.0]` fallback when it is absent. -/
def get_screen_size (inst : Option CSWindowImp) : ℚ × ℚ :=
  match inst with
  | some window => ((window.screen_width : ℚ), (window.screen_height : ℚ))
  | none => (1920, 1080)

/-- `DebugTextRender::window_size` (src/lib.rs:113-132): window size for the
current display mode, or the `[1920.0, 1080.0]` fallback when the window
singleton is absent. -/
def window_size (inst : Option CSWindowImp) : ℚ × ℚ :=
  match inst with
  | some window =>
    match window.persistent_window_config.window_type with
    | CSWindowType.Windowed =>
        ((window.persistent_window_config.windowed_screen_width : ℚ),
         (window.persistent_window_config.windowed_screen_height : ℚ))
    | CSWindowType.Fullscreen =>
        ((window.persistent_window_config.fullscreen_width : ℚ),
         (window.persistent_window_config.fullscreen_height : ℚ))
    | CSWindowType.Borderless =>
        ((window.persistent_window_config.borderless_screen_width : ℚ),
         (window.persistent_window_config.borderless_screen_height : ℚ))
  | none => (1920, 1080)

/-- `struct DebugTextRender` (src/lib.rs:71-74): the overlay state. -/
structure DebugTextRender : Type where
  text_scale : ℚ × ℚ
  font_size : ℚ
deriving DecidableEq, Repr

namespace DebugTextRender

/-- `DebugTextRender::new` (src/lib.rs:76-81). -/
def new : DebugTextRender := { text_scale := (1, 1), font_size := 24 }

/-- `DebugTextRender::reset_size` (src/lib.rs:83-89): sets `text_scale` to
the raw per-axis ratio `screen_size / window_size`, with no clamping. -/
def reset_size (inst : Option CSWindowImp) (s : DebugTextRender) :
    DebugTextRender :=
  let ws := window_size inst
  let ss := get_screen_size inst
  let aspect_w := ss.1 / ws.1
  let aspect_h := ss.2 / ws.2
  { s with text_scale := (aspect_w, aspect_h) }

/-- `DebugTextRender::get_aspect_ratios` (src/lib.rs:91-103): per-axis ratio
`screen_size / window_size`, each raised to `0.8` when below `0.8`. -/
def get_aspect_ratios (inst : Option CSWindowImp) : ℚ × ℚ :=
  let ws := window_size inst
  let ss := get_screen_size inst
  let aspect_w := ss.1 / ws.1
  let aspect_h := ss.2 / ws.2
  let aspect_w := if aspect_w < 4/5 then 4/5 else aspect_w
  let aspect_h := if aspect_h < 4/5 then 4/5 else aspect_h
  (aspect_w, aspect_h)

end DebugTextRender

/-- Rust's `as u32` saturating cast from `f32` (used on `x`, `y`,
`scaled_x`, `scaled_y` in src/lib.rs:181-184): truncate toward zero and
clamp into `[0, 2^32 - 1]`. -/
def ratToU32 (q : ℚ) : ℕ := (min (max (ratTrunc q) 0) 4294967295).toNat

/-- Modelled from the spec: `std::collections::hash_map::DefaultHasher`
(external standard-library collaborator, fixed-key and deterministic per
§8 "identical tuples always yield the same surface identifier").  The model
absorbs the hashed words and the text into a 64-bit accumulator with a
fixed deterministic mixing step; only determinism and the dependence on
exactly the absorbed data are relied upon. -/
def absorbWord (acc n : ℕ) : ℕ := (acc * 1099511628211 + n) % 18446744073709551616

/-- Modelled from the spec: the digest (`hasher.finish()`) of the four
`u32` words and the text absorbed in src/lib.rs:180-186. -/
def hasherFinish (words : List ℕ) (text : String) : ℕ :=
  (text.data.map Char.toNat).foldl absorbWord
    (words.foldl absorbWord 14695981039346656037)

/-- The scaled x coordinate computed in the `DrawCommand::Text` arm
(src/lib.rs:172): `x * self.text_scale.0`. -/
def scaledXRaw (s : DebugTextRender) (x : ℚ) : ℚ := x * s.text_scale.1

/-- The scaled y coordinate computed in the `DrawCommand::Text` arm
(src/lib.rs:173): `y * self.text_scale.1`. -/
def scaledYRaw (s : DebugTextRender) (y : ℚ) : ℚ := y * s.text_scale.2

/-- The normalized x coordinate of the `DrawCommand::Text` arm
(src/lib.rs:176): the scaled value wrapped into `[0, screen_width)`. -/
def normalizedX (s : DebugTextRender) (inst : Option CSWindowImp) (x : ℚ) : ℚ :=
  wrapCoord (scaledXRaw s x) (get_screen_size inst).1

/-- The normalized y coordinate of the `DrawCommand::Text` arm
(src/lib.rs:177): the scaled value wrapped into `[0, screen_height)`. -/
def normalizedY (s : DebugTextRender) (inst : Option CSWindowImp) (y : ℚ) : ℚ :=
  wrapCoord (scaledYRaw s y) (get_screen_size inst).2

/-- The hash-derived surface identifier as a function of the hashed tuple
`(x, y, scaled_x, scaled_y, text)` (src/lib.rs:180-186). -/
def hashId (x y sx sy : ℚ) (text : String) : ℕ :=
  hasherFinish [ratToU32 x, ratToU32 y, ratToU32 sx, ratToU32 sy] text

/-- The surface identifier computed by the `DrawCommand::Text` arm of
`DebugTextRender::render` from the overlay state, the host window
singleton, the captured coordinates and the text. -/
def textSurfaceId (s : DebugTextRender) (inst : Option CSWindowImp)
    (x y : ℚ) (text : String) : ℕ :=
  hashId x y (normalizedX s inst x) (normalizedY s inst y) text

/-- One drawn text surface, as issued by the `DrawCommand::Text` arm:
the window-name components, the position and the font scale factor. -/
structure DrawnText : Type where
  name_x : ℚ
  name_y : ℚ
  name_hash : ℕ
  pos : ℚ × ℚ
  font_scale_factor : ℚ
  text : String
deriving DecidableEq, Repr

/-- One iteration of the drain loop of `DebugTextRender::render`
(src/lib.rs:167-230): the state update and the surface drawn, per command. -/
def processCommand (inst : Option CSWindowImp) (s : DebugTextRender) :
    DrawCommand → DebugTextRender × Option DrawnText
  | DrawCommand.Text text x y =>
    let sx := normalizedX s inst x
    let sy := normalizedY s inst y
    (s, some { name_x := x, name_y := y,
               name_hash := textSurfaceId s inst x y text,
               pos := (sx, sy),
               font_scale_factor := s.font_size / BASE_IMGUI_FONT_SIZE_PX,
               text := text })
  | DrawCommand.SetFontSize scale => ({ s with font_size := scale }, none)
  | DrawCommand.SetTextScale width_scale height_scale fs =>
    let aspects := DebugTextRender.get_aspect_ratios inst
    let width_scale := width_scale * aspects.1
    let height_scale := height_scale * aspects.2
    let scale :=
      if width_scale ≠ s.text_scale.1 ∨ height_scale ≠ s.text_scale.2 then
        (width_scale, height_scale)
      else s.text_scale
    ({ text_scale := scale, font_size := fs }, none)
  | DrawCommand.ResetTextScale => (DebugTextRender.reset_size inst s, none)

/-- Capacity of `TEXT_RENDER_QUEUE` (src/lib.rs:30-31):
`ArrayQueue::new(10000)`. -/
def QUEUE_CAPACITY : ℕ := 10000

/-- Modelled from the spec: `ArrayQueue::force_push` of the external
`crossbeam_queue` collaborator, per §4.3 "if the queue is at capacity, the
oldest entry is evicted to make room (overwrite-oldest policy)".  The queue
is a list with its oldest entry at the head; the result pairs the new queue
with the evicted entry, if any. -/
def force_push (q : List DrawCommand) (c : DrawCommand) :
    List DrawCommand × Option DrawCommand :=
  if q.length < QUEUE_CAPACITY then (q ++ [c], none)
  else (q.tail ++ [c], q.head?)

/-- UTF-16 decoding of a code-unit sequence (the semantics of Rust's
`String::from_utf16`, called by `u16_ptr_to_string`): non-surrogate units
decode directly, a high surrogate must be followed by a low surrogate, and
any unpaired surrogate fails the whole decode. -/
def decodeUtf16 : List ℕ → Option (List Char)
  | [] => some []
  | [u] =>
    if u < 0xD800 ∨ 0xDFFF < u then some [Char.ofNat u] else none
  | u :: v :: rest =>
    if u < 0xD800 ∨ 0xDFFF < u then
      (decodeUtf16 (v :: rest)).map (fun cs => Char.ofNat u :: cs)
    else if u ≤ 0xDBFF then
      if 0xDC00 ≤ v ∧ v ≤ 0xDFFF then
        (decodeUtf16 rest).map
          (fun cs =>
            Char.ofNat (0x10000 + (u - 0xD800) * 0x400 + (v - 0xDC00)) :: cs)
      else none
    else none

/-- `u16_ptr_to_string` (src/lib.rs:43-50): scan the buffer up to the first
zero code unit, decode as UTF-16, and substitute the `"?EncodingError?"`
sentinel when decoding fails.  The foreign pointer and the memory behind it
are embedded as the list of code units in the scanned extent. -/
def u16_ptr_to_string (buf : List ℕ) : String :=
  let slice := buf.takeWhile (fun u => u != 0)
  match decodeUtf16 slice with
  | some cs => String.mk cs
  | none => "?EncodingError?"

/-- UTF-16 encoding of one character (the inverse direction, used to state
the round-trip property): scalar values below `0x10000` are one code unit,
the rest a surrogate pair. -/
def encodeChar (c : Char) : List ℕ :=
  let n := c.toNat
  if n < 0x10000 then [n]
  else [0xD800 + (n - 0x10000) / 0x400, 0xDC00 + (n - 0x10000) % 0x400]

/-- UTF-16 encoding of a character sequence. -/
def encodeUtf16 (cs : List Char) : List ℕ := (cs.map encodeChar).flatten

/-- The result of one hook-callback invocation: the commands pushed into
`TEXT_RENDER_QUEUE`, in push order, and whether the original host routine
was invoked. -/
structure HookResult : Type where
  pushed : List DrawCommand
  forwarded : Bool
deriving DecidableEq, Repr

/-- The `DrawTextRenderRequest` callback (src/lib.rs:246-252): decode the
text, read `(x, y)` from the position, push one `Text` command; the
original routine is not called. -/
def drawTextRenderRequest_hook (pos : ℚ × ℚ) (text : List ℕ) : HookResult :=
  let text_str := u16_ptr_to_string text
  let x := pos.1
  let y := pos.2
  { pushed := [DrawCommand.Text text_str x y], forwarded := false }

/-- The `DrawTextWithSize` callback (src/lib.rs:312-324): decode the text,
read `(x, y)` from the position and the font size through its pointer, push
`SetFontSize` then `Text`; the original routine is not called.  `font_size`
is the dereferenced value of `font_size_ptr`. -/
def drawTextWithSize_hook (pos : ℚ × ℚ) (font_size : ℚ) (text : List ℕ) :
    HookResult :=
  let text_str := u16_ptr_to_string text
  let x := pos.1
  let y := pos.2
  { pushed := [DrawCommand.SetFontSize font_size,
               DrawCommand.Text text_str x y],
    forwarded := false }

/-- The data of `std::panic::PanicHookInfo` read by `custom_panic_hook`:
the optional panic location (file, line) and the optional `&str` payload. -/
structure PanicHookInfo : Type where
  location : Option (String × ℕ)
  reason : Option String
deriving DecidableEq, Repr

/-- The observable effects of the panic path: showing the error message
box, invoking the tracing panic hook, aborting the process. -/
inductive HookEffect : Type where
  | showErrorBox : String → String → HookEffect
  | logPanic : HookEffect
  | abortProcess : HookEffect
deriving DecidableEq, Repr

/-- The message built by `custom_panic_hook` (src/logging.rs:26-40). -/
def panic_message (info : PanicHookInfo) : String :=
  let reason := info.reason.getD "Unknown"
  match info.location with
  | some loc =>
    "A panic occurred at " ++ loc.1 ++ ":" ++ toString loc.2 ++
      "\nReason: " ++ reason
  | none => "A panic occurred\nReason: " ++ reason

/-- `custom_panic_hook` (src/logging.rs:24-45): show the error box, log via
the tracing panic hook, then `std::process::abort()`. -/
def custom_panic_hook (info : PanicHookInfo) : List HookEffect :=
  [HookEffect.showErrorBox (panic_message info) "Debug Text View Error",
   HookEffect.logPanic,
   HookEffect.abortProcess]

/-- What happens when a fault (panic) is raised inside any of the five hook
callbacks installed by `init` (src/lib.rs:240-329): the callbacks contain
no unwind-catching construct, so the fault reaches the global panic hook
installed at src/lib.rs:237, which is `custom_panic_hook`. -/
def hook_callback_fault_effects (info : PanicHookInfo) : List HookEffect :=
  custom_panic_hook info

/-- A concrete host window: a 1920×1080 screen with a 3840×1080 windowed
window, so the horizontal ratio `screen / window` is `1/2 < 0.8` while the
vertical ratio is `1`. -/
def exampleWindow : CSWindowImp :=
  { screen_width := 1920, screen_height := 1080,
    persistent_window_config :=
      { window_type := CSWindowType.Windowed,
        windowed_screen_width := 3840, windowed_screen_height := 1080,
        fullscreen_width := 1920, fullscreen_height := 1080,
        borderless_screen_width := 1920, borderless_screen_height := 1080 } }

/-! ### Arithmetic facts about `ratTrunc`, `rustRem` and `wrapCoord` -/

lemma ratTrunc_eq_floor {q : ℚ} (h : 0 ≤ q) : ratTrunc q = ⌊q⌋ := by
  unfold ratTrunc
  rw [Int.tdiv_eq_ediv (Rat.num_nonneg.mpr h) (Int.ofNat_nonneg q.den)]
  exact Rat.floor_def.symm

lemma ratTrunc_eq_ceil {q : ℚ} (h : q < 0) : ratTrunc q = ⌈q⌉ := by
  unfold ratTrunc
  have hnum : q.num.tdiv (q.den : ℤ) = -((-q.num).tdiv (q.den : ℤ)) := by
    rw [Int.neg_tdiv, neg_neg]
  have hneg : (-q.num).tdiv (q.den : ℤ) = ⌊-q⌋ := by
    have hnn : (0:ℤ) ≤ -q.num := by
      have := Rat.num_neg.mpr h
      omega
    rw [Int.tdiv_eq_ediv hnn (Int.ofNat_nonneg q.den),
      Rat.floor_def, Rat.neg_num, Rat.neg_den]
  rw [hnum, hneg, Int.floor_neg, neg_neg]

lemma rustRem_decomp (a b : ℚ) (hb : b ≠ 0) :
    rustRem a b = b * (a / b - (ratTrunc (a / b) : ℚ)) := by
  unfold rustRem
  rw [mul_sub, mul_div_cancel₀ a hb]

lemma rustRem_nonneg {a b : ℚ} (ha : 0 ≤ a) (hb : 0 < b) : 0 ≤ rustRem a b := by
  rw [rustRem_decomp a b hb.ne']
  have hq : 0 ≤ a / b := div_nonneg ha hb.le
  rw [ratTrunc_eq_floor hq]
  have := Int.floor_le (a / b)
  nlinarith

lemma rustRem_lt {b : ℚ} (a : ℚ) (hb : 0 < b) : rustRem a b < b := by
  rw [rustRem_decomp a b hb.ne']
  rcases le_or_lt 0 (a / b) with hq | hq
  · rw [ratTrunc_eq_floor hq]
    have := Int.lt_floor_add_one (a / b)
    nlinarith
  · rw [ratTrunc_eq_ceil hq]
    have := Int.le_ceil (a / b)
    nlinarith

lemma neg_lt_rustRem {b : ℚ} (a : ℚ) (hb : 0 < b) : -b < rustRem a b := by
  rw [rustRem_decomp a b hb.ne']
  rcases le_or_lt 0 (a / b) with hq | hq
  · rw [ratTrunc_eq_floor hq]
    have := Int.floor_le (a / b)
    nlinarith
  · rw [ratTrunc_eq_ceil hq]
    have := Int.ceil_lt_add_one (a / b)
    nlinarith

lemma wrapCoord_nonneg {b : ℚ} (v : ℚ) (hb : 0 < b) : 0 ≤ wrapCoord v b := by
  unfold wrapCoord
  have h := neg_lt_rustRem v hb
  exact rustRem_nonneg (by linarith) hb

lemma wrapCoord_lt {b : ℚ} (v : ℚ) (hb : 0 < b) : wrapCoord v b < b := by
  unfold wrapCoord
  exact rustRem_lt _ hb

/-! ### Facts about UTF-16 encoding and decoding -/

lemma char_toNat_valid (c : Char) :
    c.toNat < 0xD800 ∨ (0xDFFF < c.toNat ∧ c.toNat < 0x110000) := c.valid

lemma takeWhile_append_zero (l : List ℕ) (h : ∀ u ∈ l, u ≠ 0) :
    (l ++ [0]).takeWhile (fun u => u != 0) = l := by
  induction l with
  | nil => simp
  | cons a t ih =>
    have ha : a ≠ 0 := h a (by simp)
    have ih' := ih (fun u hu => h u (List.mem_cons_of_mem a hu))
    simp [List.takeWhile_cons, ha, ih']

lemma decodeUtf16_encodeChar (c : Char) (l : List ℕ) :
    decodeUtf16 (encodeChar c ++ l) =
      (decodeUtf16 l).map (fun cs => c :: cs) := by
  rcases char_toNat_valid c with hv | hv
  · have henc : encodeChar c = [c.toNat] := by
      simp only [encodeChar]
      rw [if_pos (by omega)]
    rw [henc]
    cases l with
    | nil =>
      simp only [List.singleton_append, decodeUtf16]
      rw [if_pos (Or.inl hv), Char.ofNat_toNat]
      rfl
    | cons v rest =>
      simp only [List.cons_append, List.singleton_append, decodeUtf16]
      rw [if_pos (Or.inl hv), Char.ofNat_toNat]
  · rcases Nat.lt_or_ge c.toNat 0x10000 with hsmall | hbig
    · have henc : encodeChar c = [c.toNat] := by
        simp only [encodeChar]
        rw [if_pos (by omega)]
      rw [henc]
      cases l with
      | nil =>
        simp only [List.singleton_append, decodeUtf16]
        rw [if_pos (Or.inr hv.1), Char.ofNat_toNat]
        rfl
      | cons v rest =>
        simp only [List.cons_append, List.singleton_append, decodeUtf16]
        rw [if_pos (Or.inr hv.1), Char.ofNat_toNat]
    · have henc : encodeChar c =
          [0xD800 + (c.toNat - 0x10000) / 0x400,
           0xDC00 + (c.toNat - 0x10000) % 0x400] := by
        simp only [encodeChar]
        rw [if_neg (by omega)]
      have hm : c.toNat - 0x10000 < 0x100000 := by omega
      have hdivlt : (c.toNat - 0x10000) / 0x400 < 0x400 := by omega
      have hmodlt : (c.toNat - 0x10000) % 0x400 < 0x400 := by omega
      rw [henc]
      simp only [List.cons_append, decodeUtf16]
      rw [if_neg (by omega), if_pos (by omega), if_pos (by constructor <;> omega)]
      have hre : 0x10000 + (0xD800 + (c.toNat - 0x10000) / 0x400 - 0xD800) * 0x400 +
          (0xDC00 + (c.toNat - 0x10000) % 0x400 - 0xDC00) = c.toNat := by omega
      rw [hre, Char.ofNat_toNat]
      simp

lemma decodeUtf16_encodeUtf16 (cs : List Char) (l : List ℕ) :
    decodeUtf16 (encodeUtf16 cs ++ l) = (decodeUtf16 l).map (fun t => cs ++ t) := by
  induction cs with
  | nil =>
    simp only [encodeUtf16, List.map_nil, List.flatten_nil, List.nil_append]
    cases decodeUtf16 l <;> simp
  | cons c t ih =>
    have hsplit : encodeUtf16 (c :: t) = encodeChar c ++ encodeUtf16 t := by
      simp [encodeUtf16]
    rw [hsplit, List.append_assoc, decodeUtf16_encodeChar, ih]
    cases decodeUtf16 l <;> simp

lemma rustRem_eq_self {a b : ℚ} (hb : 0 < b) (h1 : -b < a) (h2 : a < b) :
    rustRem a b = a := by
  rw [rustRem_decomp a b hb.ne']
  rcases le_or_lt 0 a with ha | ha
  · have hq : ⌊a / b⌋ = 0 := by
      rw [Int.floor_eq_zero_iff]
      constructor
      · exact div_nonneg ha hb.le
      · rw [div_lt_one hb]; exact h2
    rw [ratTrunc_eq_floor (div_nonneg ha hb.le), hq]
    push_cast
    field_simp
  · have hq' : a / b < 0 := div_neg_of_neg_of_pos ha hb
    have hq : ⌈a / b⌉ = 0 := by
      rw [Int.ceil_eq_zero_iff]
      constructor
      · rw [neg_lt, ← neg_div, div_lt_one hb]
        linarith
      · exact hq'.le
    rw [ratTrunc_eq_ceil hq', hq]
    push_cast
    field_simp

/-! ### Claim theorems -/

/-- C1: For every coordinate pair `(x, y)`, every text-scale pair, and every
positive screen size, the coordinate normalization of the
`DrawCommand::Text` arm (`scaled = coord * scale` followed by the
floored-modulo wrap `(v % size + size) % size`) lands in
`[0, screen_width) × [0, screen_height)`, including for negative
coordinates; in particular `x = -10` with scale `1` and screen width `1920`
normalizes to `1910`. -/
theorem claim_C1 (s : DebugTextRender) (inst : Option CSWindowImp) (x y : ℚ)
    (hw : 0 < (get_screen_size inst).1) (hh : 0 < (get_screen_size inst).2) :
    (0 ≤ normalizedX s inst x ∧ normalizedX s inst x < (get_screen_size inst).1) ∧
    (0 ≤ normalizedY s inst y ∧ normalizedY s inst y < (get_screen_size inst).2) ∧
    wrapCoord ((-10) * 1) 1920 = 1910 := by
  refine ⟨⟨wrapCoord_nonneg _ hw, wrapCoord_lt _ hw⟩,
    ⟨wrapCoord_nonneg _ hh, wrapCoord_lt _ hh⟩, ?_⟩
  have hvr : ((-10 : ℚ)) * 1 = -10 := by norm_num
  have hinner : rustRem ((-10 : ℚ) * 1) 1920 = -10 := by
    rw [hvr]
    exact rustRem_eq_self (by norm_num) (by norm_num) (by norm_num)
  unfold wrapCoord
  rw [hinner]
  have hsum : ((-10 : ℚ)) + 1920 = 1910 := by norm_num
  rw [hsum]
  exact rustRem_eq_self (by norm_num) (by norm_num) (by norm_num)

/-- Witness for C1 at `x = y = -10`, default overlay state, absent window
(fallback 1920×1080 screen). -/
theorem claim_C1_witness :
    0 < (get_screen_size none).1 ∧ 0 < (get_screen_size none).2 ∧
    ((0 ≤ normalizedX DebugTextRender.new none (-10) ∧
      normalizedX DebugTextRender.new none (-10) < (get_screen_size none).1) ∧
     (0 ≤ normalizedY DebugTextRender.new none (-10) ∧
      normalizedY DebugTextRender.new none (-10) < (get_screen_size none).2) ∧
     wrapCoord ((-10) * 1) 1920 = 1910) :=
  ⟨by decide, by decide,
   claim_C1 DebugTextRender.new none (-10) (-10) (by decide) (by decide)⟩

/-- C4: Every invocation of the `DrawTextWithSize` hook enqueues exactly two
commands, a `SetFontSize` carrying the dereferenced font size strictly
before a `Text` carrying the decoded string and position, and does not
forward to the original host routine. -/
theorem claim_C4 (pos : ℚ × ℚ) (font_size : ℚ) (text : List ℕ) :
    (drawTextWithSize_hook pos font_size text).pushed =
      [DrawCommand.SetFontSize font_size,
       DrawCommand.Text (u16_ptr_to_string text) pos.1 pos.2] ∧
    (drawTextWithSize_hook pos font_size text).pushed.length = 2 ∧
    (drawTextWithSize_hook pos font_size text).forwarded = false :=
  ⟨rfl, rfl, rfl⟩

/-- C5: Per-axis aspect-ratio correction returns exactly `0.8` on an axis
whose ratio `screen_size / window_size` is below `0.8`, and returns the
ratio unchanged on an axis whose ratio is at least `0.8`. -/
theorem claim_C5 (inst : Option CSWindowImp) (rw rh : ℚ)
    (hrw : rw = (get_screen_size inst).1 / (window_size inst).1)
    (hrh : rh = (get_screen_size inst).2 / (window_size inst).2) :
    (rw < 4/5 → (DebugTextRender.get_aspect_ratios inst).1 = 4/5) ∧
    (4/5 ≤ rw → (DebugTextRender.get_aspect_ratios inst).1 = rw) ∧
    (rh < 4/5 → (DebugTextRender.get_aspect_ratios inst).2 = 4/5) ∧
    (4/5 ≤ rh → (DebugTextRender.get_aspect_ratios inst).2 = rh) := by
  subst hrw hrh
  simp only [DebugTextRender.get_aspect_ratios]
  constructor
  · intro h
    simp [h]
  constructor
  · intro h
    simp [not_lt.mpr h]
  constructor
  · intro h
    simp [h]
  · intro h
    simp [not_lt.mpr h]

/-- Witness for C5 at the concrete geometry whose horizontal ratio is
`1920/3840 = 1/2 < 0.8` and whose vertical ratio is `1080/1080 = 1 ≥ 0.8`. -/
theorem claim_C5_witness :
    (get_screen_size (some exampleWindow)).1 / (window_size (some exampleWindow)).1 =
      (get_screen_size (some exampleWindow)).1 / (window_size (some exampleWindow)).1 ∧
    (((get_screen_size (some exampleWindow)).1 / (window_size (some exampleWindow)).1 < 4/5 →
        (DebugTextRender.get_aspect_ratios (some exampleWindow)).1 = 4/5) ∧
     (4/5 ≤ (get_screen_size (some exampleWindow)).1 / (window_size (some exampleWindow)).1 →
        (DebugTextRender.get_aspect_ratios (some exampleWindow)).1 =
          (get_screen_size (some exampleWindow)).1 / (window_size (some exampleWindow)).1) ∧
     ((get_screen_size (some exampleWindow)).2 / (window_size (some exampleWindow)).2 < 4/5 →
        (DebugTextRender.get_aspect_ratios (some exampleWindow)).2 = 4/5) ∧
     (4/5 ≤ (get_screen_size (some exampleWindow)).2 / (window_size (some exampleWindow)).2 →
        (DebugTextRender.get_aspect_ratios (some exampleWindow)).2 =
          (get_screen_size (some exampleWindow)).2 / (window_size (some exampleWindow)).2)) :=
  ⟨rfl, claim_C5 (some exampleWindow) _ _ rfl rfl⟩

/-- C7: A foreign null-terminated wide-character buffer whose code-unit
sequence before the terminator is not valid UTF-16 decodes to the fixed
sentinel `"?EncodingError?"` rather than an error. -/
theorem claim_C7 (buf : List ℕ)
    (hmal : decodeUtf16 (buf.takeWhile (fun u => u != 0)) = none) :
    u16_ptr_to_string buf = "?EncodingError?" := by
  simp [u16_ptr_to_string, hmal]

/-- Witness for C7 on a buffer holding one unpaired high surrogate
(`0xD800`) before the terminator. -/
theorem claim_C7_witness :
    decodeUtf16 (([0xD800, 0] : List ℕ).takeWhile (fun u => u != 0)) = none ∧
    u16_ptr_to_string [0xD800, 0] = "?EncodingError?" :=
  ⟨by decide, claim_C7 [0xD800, 0] (by decide)⟩

/-- C8: When the host window object is absent, both the screen-size query
and the window-size query return the fallback geometry `[1920.0, 1080.0]`. -/
theorem claim_C8 :
    get_screen_size none = (1920, 1080) ∧ window_size none = (1920, 1080) :=
  ⟨rfl, rfl⟩

/-- C2 counterexample: the claim says no fault inside a hook callback
terminates the host process, but a panic in a callback reaches the global
panic hook (`custom_panic_hook`), whose effect list contains a process
abort — already at the concrete panic info with no location and no
payload. -/
theorem claim_C2_counterexample :
    HookEffect.abortProcess ∈
      hook_callback_fault_effects { location := none, reason := none } := by
  simp [hook_callback_fault_effects, custom_panic_hook]

/-- C2 amended: a fault (panic) inside a hook callback is not swallowed at
the callback boundary; it reaches the installed global panic hook, which
shows an error message box, logs the panic, and aborts the host process. -/
theorem claim_C2_amended (info : PanicHookInfo) :
    hook_callback_fault_effects info =
      [HookEffect.showErrorBox (panic_message info) "Debug Text View Error",
       HookEffect.logPanic,
       HookEffect.abortProcess] ∧
    HookEffect.abortProcess ∈ hook_callback_fault_effects info := by
  refine ⟨rfl, ?_⟩
  simp [hook_callback_fault_effects, custom_panic_hook]

/-- C3: Pushing into the 10,000-slot queue never fails the producer: at
capacity the push succeeds, evicts exactly the oldest entry, leaves every
other queued entry unchanged in order, and the queue length never exceeds
10,000. -/
theorem claim_C3 (q : List DrawCommand) (c : DrawCommand)
    (hq : q.length = QUEUE_CAPACITY) :
    (force_push q c).1 = q.tail ++ [c] ∧
    (force_push q c).2 = q.head? ∧
    (force_push q c).1.length = QUEUE_CAPACITY ∧
    (∀ r : List DrawCommand, r.length ≤ QUEUE_CAPACITY →
      (force_push r c).1.length ≤ QUEUE_CAPACITY) := by
  simp only [QUEUE_CAPACITY] at hq
  have hfull : ¬ q.length < 10000 := by omega
  refine ⟨?_, ?_, ?_, ?_⟩
  · simp [force_push, QUEUE_CAPACITY, hfull]
  · simp [force_push, QUEUE_CAPACITY, hfull]
  · simp [force_push, QUEUE_CAPACITY, hfull]; omega
  · intro r hr
    simp only [QUEUE_CAPACITY] at hr
    by_cases hlt : r.length < 10000
    · simp [force_push, QUEUE_CAPACITY, hlt]; omega
    · simp [force_push, QUEUE_CAPACITY, hlt]; omega

/-- Witness for C3 on a queue of 10,000 `ResetTextScale` commands at
capacity. -/
theorem claim_C3_witness :
    (List.replicate QUEUE_CAPACITY DrawCommand.ResetTextScale).length =
      QUEUE_CAPACITY ∧
    ((force_push (List.replicate QUEUE_CAPACITY DrawCommand.ResetTextScale)
        (DrawCommand.SetFontSize 24)).1 =
      (List.replicate QUEUE_CAPACITY DrawCommand.ResetTextScale).tail ++
        [DrawCommand.SetFontSize 24] ∧
     (force_push (List.replicate QUEUE_CAPACITY DrawCommand.ResetTextScale)
        (DrawCommand.SetFontSize 24)).2 =
      (List.replicate QUEUE_CAPACITY DrawCommand.ResetTextScale).head? ∧
     (force_push (List.replicate QUEUE_CAPACITY DrawCommand.ResetTextScale)
        (DrawCommand.SetFontSize 24)).1.length = QUEUE_CAPACITY ∧
     (∀ r : List DrawCommand, r.length ≤ QUEUE_CAPACITY →
       (force_push r (DrawCommand.SetFontSize 24)).1.length ≤ QUEUE_CAPACITY)) :=
  ⟨by simp, claim_C3 (List.replicate QUEUE_CAPACITY DrawCommand.ResetTextScale)
    (DrawCommand.SetFontSize 24) (by simp)⟩

/-- C6: Processing `ResetTextScale` sets `text_scale` to the raw per-axis
ratio `screen_size / window_size` with no `0.8` floor, whereas processing
`SetTextScale` multiplies the incoming scales by the `0.8`-floored
aspect-ratio factors; on the concrete geometry whose horizontal ratio is
`1/2 < 0.8` the two produce different scales. -/
theorem claim_C6 (inst : Option CSWindowImp) (s : DebugTextRender)
    (w h fs : ℚ) :
    (processCommand inst s DrawCommand.ResetTextScale).1.text_scale =
      ((get_screen_size inst).1 / (window_size inst).1,
       (get_screen_size inst).2 / (window_size inst).2) ∧
    (processCommand inst s (DrawCommand.SetTextScale w h fs)).1.text_scale =
      (w * (DebugTextRender.get_aspect_ratios inst).1,
       h * (DebugTextRender.get_aspect_ratios inst).2) ∧
    (processCommand (some exampleWindow) DebugTextRender.new
        DrawCommand.ResetTextScale).1.text_scale ≠
      (processCommand (some exampleWindow) DebugTextRender.new
        (DrawCommand.SetTextScale 1 1 fs)).1.text_scale := by
  have hreset : ∀ (inst' : Option CSWindowImp) (s' : DebugTextRender),
      (processCommand inst' s' DrawCommand.ResetTextScale).1.text_scale =
        ((get_screen_size inst').1 / (window_size inst').1,
         (get_screen_size inst').2 / (window_size inst').2) := by
    intro inst' s'
    simp [processCommand, DebugTextRender.reset_size]
  have hset : ∀ (inst' : Option CSWindowImp) (s' : DebugTextRender) (w' h' fs' : ℚ),
      (processCommand inst' s' (DrawCommand.SetTextScale w' h' fs')).1.text_scale =
        (w' * (DebugTextRender.get_aspect_ratios inst').1,
         h' * (DebugTextRender.get_aspect_ratios inst').2) := by
    intro inst' s' w' h' fs'
    simp only [processCommand]
    split_ifs with hcond
    · rfl
    · push_neg at hcond
      exact Prod.ext hcond.1.symm hcond.2.symm
  refine ⟨hreset inst s, hset inst s w h fs, ?_⟩
  rw [hreset, hset]
  have hratios : DebugTextRender.get_aspect_ratios (some exampleWindow) = (4/5, 1) := by
    have hw2 : (get_screen_size (some exampleWindow)).1 /
        (window_size (some exampleWindow)).1 = 1/2 := by
      norm_num [get_screen_size, window_size, exampleWindow]
    have hh2 : (get_screen_size (some exampleWindow)).2 /
        (window_size (some exampleWindow)).2 = 1 := by
      norm_num [get_screen_size, window_size, exampleWindow]
    simp only [DebugTextRender.get_aspect_ratios, hw2, hh2]
    norm_num
  rw [hratios]
  intro hcontra
  have h1 := congrArg Prod.fst hcontra
  simp only [get_screen_size, window_size, exampleWindow] at h1
  norm_num at h1

/-- C9: The per-draw surface identifier is a deterministic function of the
tuple `(x, y, scaled_x, scaled_y, text)`: any two computations whose tuples
agree yield the same identifier, the identifier factors through `hashId` on
exactly that tuple, and it does not depend on overlay state beyond the
tuple — in particular not on `font_size`. -/
theorem claim_C9 (s1 s2 : DebugTextRender) (inst1 inst2 : Option CSWindowImp)
    (x1 y1 x2 y2 : ℚ) (t1 t2 : String)
    (hx : x1 = x2) (hy : y1 = y2)
    (hsx : normalizedX s1 inst1 x1 = normalizedX s2 inst2 x2)
    (hsy : normalizedY s1 inst1 y1 = normalizedY s2 inst2 y2)
    (ht : t1 = t2) :
    textSurfaceId s1 inst1 x1 y1 t1 = textSurfaceId s2 inst2 x2 y2 t2 ∧
    textSurfaceId s1 inst1 x1 y1 t1 =
      hashId x1 y1 (normalizedX s1 inst1 x1) (normalizedY s1 inst1 y1) t1 ∧
    (∀ fs : ℚ,
      textSurfaceId { s1 with font_size := fs } inst1 x1 y1 t1 =
        textSurfaceId s1 inst1 x1 y1 t1) := by
  refine ⟨?_, rfl, fun fs => rfl⟩
  unfold textSurfaceId
  rw [hx, hy, ht] at *
  rw [hsx, hsy]

/-- Witness for C9: two states with equal `text_scale` but different
`font_size`, over the same absent window and the tuple
`(1, 1, scaled, scaled, "a")`. -/
theorem claim_C9_witness :
    (1 : ℚ) = 1 ∧ (1 : ℚ) = 1 ∧
    normalizedX DebugTextRender.new none 1 =
      normalizedX { text_scale := (1, 1), font_size := 99 } none 1 ∧
    normalizedY DebugTextRender.new none 1 =
      normalizedY { text_scale := (1, 1), font_size := 99 } none 1 ∧
    "a" = "a" ∧
    (textSurfaceId DebugTextRender.new none 1 1 "a" =
      textSurfaceId { text_scale := (1, 1), font_size := 99 } none 1 1 "a" ∧
     textSurfaceId DebugTextRender.new none 1 1 "a" =
      hashId 1 1 (normalizedX DebugTextRender.new none 1)
        (normalizedY DebugTextRender.new none 1) "a" ∧
     (∀ fs : ℚ,
       textSurfaceId { DebugTextRender.new with font_size := fs } none 1 1 "a" =
         textSurfaceId DebugTextRender.new none 1 1 "a")) :=
  ⟨rfl, rfl, rfl, rfl, rfl,
   claim_C9 DebugTextRender.new { text_scale := (1, 1), font_size := 99 }
     none none 1 1 1 1 "a" "a" rfl rfl rfl rfl rfl⟩

/-- C10: The wide-character decoder round-trips valid text: for a string
`s` whose UTF-16 encoding contains no NUL code unit, decoding the buffer
holding the code units of `s` followed by a zero terminator yields exactly
`s` (terminator excluded), and a buffer whose first code unit is zero
decodes to the empty string. -/
theorem claim_C10 (s : String) (rest : List ℕ)
    (h : 0 ∉ encodeUtf16 s.data) :
    u16_ptr_to_string (encodeUtf16 s.data ++ [0]) = s ∧
    u16_ptr_to_string (0 :: rest) = "" := by
  constructor
  · have htake : (encodeUtf16 s.data ++ [0]).takeWhile (fun u => u != 0) =
        encodeUtf16 s.data :=
      takeWhile_append_zero _ (fun u hu => by
        rintro rfl
        exact h hu)
    have hdec : decodeUtf16 (encodeUtf16 s.data) = some s.data := by
      have := decodeUtf16_encodeUtf16 s.data []
      simpa [decodeUtf16] using this
    simp only [u16_ptr_to_string, htake, hdec]
  · simp [u16_ptr_to_string, List.takeWhile_cons, decodeUtf16]

/-- Witness for C10 at `s = "ab"` (code units `[97, 98]`) and the buffer
`[0, 55]`. -/
theorem claim_C10_witness :
    (0 ∉ encodeUtf16 "ab".data) ∧
    (u16_ptr_to_string (encodeUtf16 "ab".data ++ [0]) = "ab" ∧
     u16_ptr_to_string (0 :: [55]) = "") :=
  ⟨by decide, claim_C10 "ab" [55] (by decide)⟩
